import Mathlib

/-!
Shallow embedding of the realtime delivery core of the ChitChat repository:
the socket server handlers (`sendMessage`, `sendRoomMessage`,
`deleteRoomMessage`, the disconnect cleanup, the auth-middleware presence
updates), the client reconciliation handlers of the room chat and the
private chat, the group-call signal handler with its pending-candidate
queues, and the Message store's uniqueness indexes.

Asynchronous persistence is embedded by passing the outcome of the single
`save` call as an explicit parameter (`Option MsgId`): the handler's
behaviour on each outcome is exactly the code's `try`/`catch` split.
Socket.io emission targets are embedded as `Target`: `io.to(roomId)`
reaches every connection currently joined to the room, `io.to(userId)`
reaches every connection in the user's personal room, and `socket.emit`
reaches only the requesting connection.
-/

namespace ChitChat

abbrev UserId := Nat
abbrev RoomId := Nat
abbrev MsgId := Nat
abbrev TempId := Nat

/-- Persisted message record (`backend/models/Message.js`): sender is
required; `receiver` and `room` are optional references; `clientMsgId`
is an optional client correlation id (unique sparse index); soft deletion
uses `isDeleted`/`deletedAt`; `createdAt` comes from the schema's
timestamps. -/
structure Message where
  mid : MsgId
  sender : UserId
  receiver : Option UserId
  room : Option RoomId
  text : String
  clientMsgId : Option Nat
  createdAt : Nat
  isDeleted : Bool
  deletedAt : Option Nat
deriving DecidableEq, Repr

/-- Wire identifier carried in the `_id` field of a `newRoomMessage`
payload: the immediate (unconfirmed) copy carries the client `tempId`,
the confirmed copy carries the durable database id. -/
inductive WireId where
  | temp (t : TempId)
  | durable (m : MsgId)
deriving DecidableEq, Repr

/-- Payloads of the server-emitted socket events that the embedded
handlers produce. `newMessage` carries the populated message plus the
echoed `clientMsgId`; `newRoomMessage` carries the wire `_id`, the
`tempId` used for client-side matching, and the text;
`roomMessageDeleted` carries the mutated record. `messageError` carries
whichever correlation field the emitting handler includes (the direct
handler echoes `clientMsgId`, the room handler echoes `tempId`, the
delete handler echoes neither). -/
inductive Payload where
  | newMessage (m : Message) (clientMsgId : Option Nat)
  | messageError (clientMsgId : Option Nat) (tempId : Option TempId)
  | newRoomMessage (wid : WireId) (tempId : TempId) (text : String)
  | removeFailedMessage (tempId : TempId)
  | roomMessageDeleted (m : Message)
  | userLeftRoom (uid : UserId) (room : RoomId)
deriving DecidableEq, Repr

/-- Emission target: `io.to(roomId)`, `io.to(userId)` (personal room),
or `socket.emit` (the requesting connection only). -/
inductive Target where
  | toRoom (r : RoomId)
  | toUser (u : UserId)
  | toSender
deriving DecidableEq, Repr

/-- One server-side `emit` call: a target and a payload. -/
structure Emit where
  target : Target
  payload : Payload
deriving DecidableEq, Repr

/-- Whether an emitted event reaches user `u`: a room emit reaches `u`
iff `u` is currently active in (joined to) that room, a personal-room
emit reaches `u` iff it names `u`, and a `socket.emit` reaches `u` iff
`u` is on the requesting connection (`isSenderConn`). -/
def reaches (active : UserId → RoomId → Bool) (u : UserId)
    (isSenderConn : Bool) : Emit → Bool
  | ⟨.toRoom r, _⟩ => active u r
  | ⟨.toUser v, _⟩ => u == v
  | ⟨.toSender, _⟩ => isSenderConn

/-- Payload sequence an observer receives from a list of emits, in
emission order. -/
def receivedBy (active : UserId → RoomId → Bool) (u : UserId)
    (isSenderConn : Bool) (emits : List Emit) : List Payload :=
  (emits.filter (reaches active u isSenderConn)).map (·.payload)

/-- Embeds the `sendRoomMessage` handler: broadcast the immediate
(unconfirmed) copy carrying the `tempId` to the room before persistence;
on save success broadcast the persisted copy (durable `_id`, same
`tempId`); on save failure emit `messageError` to the sending connection
and `removeFailedMessage` to the room. The save outcome is the `save`
parameter. Returned in emission order. -/
def sendRoomMessage (roomId : RoomId) (text : String) (tempId : TempId)
    (save : Option MsgId) : List Emit :=
  let immediate : Emit := ⟨.toRoom roomId, .newRoomMessage (.temp tempId) tempId text⟩
  match save with
  | some mid =>
      [immediate, ⟨.toRoom roomId, .newRoomMessage (.durable mid) tempId text⟩]
  | none =>
      [immediate,
       ⟨.toSender, .messageError none (some tempId)⟩,
       ⟨.toRoom roomId, .removeFailedMessage tempId⟩]

/-- Embeds the `sendMessage` handler: on save success the store grows by
the one saved message and the populated message (echoing `clientMsgId`)
is emitted to the receiver's and the sender's personal rooms; on save
failure the store is unchanged and a single `messageError` carrying
`clientMsgId` goes to the sending connection. -/
def sendMessage (db : List Message) (senderId receiver : UserId)
    (text : String) (cmid : Nat) (save : Option MsgId) (now : Nat) :
    List Message × List Emit :=
  match save with
  | some mid =>
      let saved : Message :=
        { mid := mid, sender := senderId, receiver := some receiver,
          room := none, text := text, clientMsgId := some cmid,
          createdAt := now, isDeleted := false, deletedAt := none }
      (db ++ [saved],
       [⟨.toUser receiver, .newMessage saved (some cmid)⟩,
        ⟨.toUser senderId, .newMessage saved (some cmid)⟩])
  | none =>
      (db, [⟨.toSender, .messageError (some cmid) none⟩])

/-- Presence/connection state of one identity: `conns` is the ambient
number of live transport connections of that identity; `online` and
`lastSeen` are the fields the server writes on the User record. -/
structure RegState where
  conns : Nat
  online : Bool
  lastSeen : Option Nat
deriving DecidableEq, Repr

/-- Embeds the socket auth middleware's successful branch: one more live
connection, and the User record is updated to `online: true`,
`lastSeen: null`. -/
def register (s : RegState) : RegState :=
  { conns := s.conns + 1, online := true, lastSeen := none }

/-- Embeds the `disconnect` handler's User update: one connection gone,
and the record is set to `online: false`, `lastSeen: now` —
unconditionally, with no check for remaining live connections of the
same identity. -/
def disconnect (s : RegState) (now : Nat) : RegState :=
  { conns := s.conns - 1, online := false, lastSeen := some now }

/-- Embeds the `disconnect` handler's room cleanup loop over the
`activeRooms` map (entries `(roomId, users)` in iteration order): for
each room whose user set holds the departing `uid`, remove `uid`, emit a
`userLeftRoom` broadcast to the room, and drop the room entry when its
set became empty. -/
def disconnectCleanup (rooms : List (RoomId × List UserId)) (uid : UserId) :
    List (RoomId × List UserId) × List Emit :=
  match rooms with
  | [] => ([], [])
  | p :: rest =>
      let tail := disconnectCleanup rest uid
      if uid ∈ p.2 then
        let remaining := p.2.erase uid
        ((if remaining.isEmpty then tail.1 else (p.1, remaining) :: tail.1),
         ⟨.toRoom p.1, .userLeftRoom uid p.1⟩ :: tail.2)
      else
        (p :: tail.1, tail.2)

/-- Message entry as held in the room-chat client's `messages` list:
`_id` is absent only for malformed entries (always present in practice;
temp entries carry the `tempId` there), `tempId` is present on optimistic
and on server room broadcasts. -/
structure RMsg where
  wireId : Option WireId
  tempId : Option TempId
  senderId : UserId
  text : String
  createdAt : Nat
deriving DecidableEq, Repr

/-- Match test of the room-chat `messageHandler`'s `findIndex`:
`(msg.tempId && msg.tempId === message.tempId) ||
 (msg._id && msg._id === message._id)` — truthiness of the stored field,
then equality with the arriving message's field. -/
def rmatches (incoming stored : RMsg) : Bool :=
  (stored.tempId.isSome && stored.tempId == incoming.tempId) ||
  (stored.wireId.isSome && stored.wireId == incoming.wireId)

/-- Embeds the room-chat `messageHandler` state update: find the first
existing entry matching by `tempId` or `_id`; replace it in place when
found, otherwise append the arriving message. -/
def roomMessageHandler (prev : List RMsg) (m : RMsg) : List RMsg :=
  match prev.findIdx? (rmatches m) with
  | some i => prev.set i m
  | none => prev ++ [m]

/-- Message entry as held in the private-chat client's `messages` list.
`createdAt` in milliseconds. -/
structure PMsg where
  mid : Option Nat
  clientMsgId : Option Nat
  senderId : UserId
  text : String
  createdAt : Int
  isTemp : Bool
deriving DecidableEq, Repr

/-- Duplicate test of the private-chat `handleNewMessage`:
an existing entry matches by `clientMsgId`, or is a temp entry with the
same text whose timestamp is within 1000 ms of the arriving one. -/
def pIsDuplicate (prev : List PMsg) (m : PMsg) : Bool :=
  prev.any fun msg =>
    (msg.clientMsgId.isSome && msg.clientMsgId == m.clientMsgId) ||
    (msg.isTemp && msg.text == m.text && (msg.createdAt - m.createdAt).natAbs < 1000)

/-- Embeds the private-chat `handleNewMessage` state update: when the
arriving message is judged a duplicate the previous list is returned
unchanged (the arriving copy is dropped); otherwise it is appended. -/
def handleNewMessage (prev : List PMsg) (m : PMsg) : List PMsg :=
  if pIsDuplicate prev m then prev else prev ++ [m]

/-- Filter of the `deleteRoomMessage` handler's `findOneAndUpdate`:
`{ _id: messageId, sender: socket.userId }`. -/
def deleteMatch (mid requester : Nat) (m : Message) : Bool :=
  m.mid == mid && m.sender == requester

/-- Update document of the `findOneAndUpdate`: `isDeleted: true`,
`deletedAt: now`, `text: '[Message deleted]'`. -/
def softDelete (m : Message) (now : Nat) : Message :=
  { m with isDeleted := true, deletedAt := some now, text := "[Message deleted]" }

/-- Atomic `findOneAndUpdate` with `{ new: true }` over the store: update
the first record matching the filter and return the updated record,
or `none` leaving the store unchanged. -/
def updateFirst (db : List Message) (mid requester now : Nat) :
    Option Message × List Message :=
  match db with
  | [] => (none, [])
  | m :: rest =>
      if deleteMatch mid requester m then
        (some (softDelete m now), softDelete m now :: rest)
      else
        let tail := updateFirst rest mid requester now
        (tail.1, m :: tail.2)

/-- Embeds the `deleteRoomMessage` handler: the guarded atomic update; a
`null` result (missing message or non-sender requester) throws and is
answered by a `messageError` on the requesting connection only; on
success the mutated record is broadcast to `message.room` (a record
without a room makes `message.room.toString()` throw, landing in the same
catch). -/
def deleteRoomMessage (db : List Message) (mid requester now : Nat) :
    List Message × List Emit :=
  match updateFirst db mid requester now with
  | (some m, db₂) =>
      match m.room with
      | some r => (db₂, [⟨.toRoom r, .roomMessageDeleted m⟩])
      | none => (db₂, [⟨.toSender, .messageError none none⟩])
  | (none, db₂) => (db₂, [⟨.toSender, .messageError none none⟩])

/-- Group-call signal payload (`signal` field of `groupCallSignal`):
session descriptions carry an sdp, connectivity candidates carry a
candidate value. -/
inductive Signal where
  | offer (sdp : Nat)
  | answer (sdp : Nat)
  | candidate (c : Nat)
deriving DecidableEq, Repr

/-- Per-remote-peer connection state: the remote session description (if
applied) and the connectivity candidates applied to the connection, in
application order. -/
structure PeerConn where
  remoteDesc : Option Signal
  applied : List Nat
deriving DecidableEq, Repr

/-- Lookup in an association list keyed by user id (`Map.prototype.get`,
as used on `peerConnectionsRef.current` and `pendingCandidatesRef.current`). -/
def getA {α : Type} (l : List (Nat × α)) (k : Nat) : Option α :=
  (l.find? (·.1 == k)).map (·.2)

/-- Keyed update of an association list (`Map.prototype.set`): replace
the first entry holding the key, append the binding when absent. -/
def setA {α : Type} : List (Nat × α) → Nat → α → List (Nat × α)
  | [], k, v => [(k, v)]
  | p :: rest, k, v =>
      if p.1 == k then (k, v) :: rest else p :: setA rest k v

/-- Pending-candidate queue of a remote peer
(`pendingCandidatesRef.current.get(from) || []`). -/
def qget (l : List (Nat × List Nat)) (k : Nat) : List Nat :=
  (getA l k).getD []

/-- Client-side group-call negotiation state: the peer-connection map,
the per-remote-peer pending-candidate queues, and the signals sent back
out over the socket. -/
structure CallPeers where
  peers : List (UserId × PeerConn)
  pending : List (UserId × List Nat)
  outgoing : List Signal
deriving DecidableEq, Repr

/-- Embeds `handleGroupCallSignal` for a signal from `fromId`: no-op when
no peer connection exists for `fromId`. An offer sets the remote
description and sends back an answer — without touching the pending
queue. An answer sets the remote description, then drains the pending
queue front-first, applying each buffered candidate in arrival order,
and stores back the emptied queue. A candidate is applied directly when
the remote description is already set, else appended to the pending
queue. -/
def handleGroupCallSignal (s : CallPeers) (fromId : UserId) (sig : Signal) :
    CallPeers :=
  match getA s.peers fromId with
  | none => s
  | some pc =>
      match sig with
      | .offer sdp =>
          { s with
            peers := setA s.peers fromId { pc with remoteDesc := some (.offer sdp) },
            outgoing := s.outgoing ++ [.answer sdp] }
      | .answer sdp =>
          { s with
            peers := setA s.peers fromId
              { pc with remoteDesc := some (.answer sdp),
                        applied := pc.applied ++ qget s.pending fromId },
            pending := setA s.pending fromId [] }
      | .candidate c =>
          if pc.remoteDesc.isSome then
            { s with peers := setA s.peers fromId { pc with applied := pc.applied ++ [c] } }
          else
            { s with pending := setA s.pending fromId (qget s.pending fromId ++ [c]) }

/-- Observable resource state of the group-call component on one client:
whether a local media stream is held, whether its tracks have been
stopped, whether the peer-connection map was cleared, whether the
component invoked `onClose`, and the error banner. -/
structure CallUI where
  hasLocalStream : Bool
  tracksStopped : Bool
  peersCleared : Bool
  closed : Bool
  errorSet : Bool
deriving DecidableEq, Repr

/-- Embeds `endCall`: close and clear the peer connections, stop every
track of the local stream when one is held, emit `groupCallEnded`, and
invoke `onClose`. -/
def endCall (s : CallUI) : CallUI :=
  { s with peersCleared := true,
           tracksStopped := s.tracksStopped || s.hasLocalStream,
           closed := true }

/-- Embeds `handleGroupCallEnded` (remote termination): it just calls
`endCall`. -/
def handleGroupCallEnded (s : CallUI) : CallUI :=
  endCall s

/-- Embeds `rejectGroupCall`: emit `groupCallRejected` and invoke
`onClose` — the local stream's tracks are not stopped. -/
def rejectGroupCall (s : CallUI) : CallUI :=
  { s with closed := true }

/-- Embeds `handleGroupCallRejected` (remote side rejected): set the
error banner and invoke `onClose` — no track release. -/
def handleGroupCallRejected (s : CallUI) : CallUI :=
  { s with errorSet := true, closed := true }

/-- Embeds the catch branch of `handleGroupCallSignal` and of
`handleGroupCallAccepted` (negotiation error): set the error banner
only — no track release. -/
def signalErrorStep (s : CallUI) : CallUI :=
  { s with errorSet := true }

/-- Unique sparse index on `clientMsgId` alone: a new record bearing a
`clientMsgId` conflicts when some stored record bears the same one
(records without the field are exempt — the index is sparse). -/
def clientConflict (db : List Message) (m : Message) : Bool :=
  m.clientMsgId.isSome &&
    db.any fun x => x.clientMsgId.isSome && x.clientMsgId == m.clientMsgId

/-- Compound unique index on
`(sender, receiver, text, clientMsgId, createdAt)`. -/
def tupleConflict (db : List Message) (m : Message) : Bool :=
  db.any fun x =>
    x.sender == m.sender && x.receiver == m.receiver && x.text == m.text &&
    x.clientMsgId == m.clientMsgId && x.createdAt == m.createdAt

/-- Store insert under the Message schema's two unique indexes: the
write is rejected (duplicate-key error) when either index fires. -/
def insertMessage (db : List Message) (m : Message) : Option (List Message) :=
  if clientConflict db m || tupleConflict db m then none else some (db ++ [m])

/-- Stores reachable from the empty store by successful inserts. -/
inductive Persisted : List Message → Prop where
  | nil : Persisted []
  | insert {db db₂ : List Message} {m : Message} :
      Persisted db → insertMessage db m = some db₂ → Persisted db₂

/-! Helper lemmas shared across the claim theorems. -/

theorem getA_setA_self {α : Type} (l : List (Nat × α)) (k : Nat) (v : α) :
    getA (setA l k v) k = some v := by
  induction l with
  | nil => simp [getA, setA, List.find?]
  | cons p rest ih =>
      by_cases h : p.1 = k
      · simp [getA, setA, h, List.find?]
      · simpa [getA, setA, h, List.find?] using ih

theorem disconnectCleanup_emits (rooms : List (RoomId × List UserId))
    (uid : UserId) :
    (disconnectCleanup rooms uid).2
      = (rooms.filter (fun q => decide (uid ∈ q.2))).map
          (fun q => ⟨.toRoom q.1, .userLeftRoom uid q.1⟩) := by
  induction rooms with
  | nil => rfl
  | cons p rest ih =>
      by_cases h : uid ∈ p.2
      · by_cases he : (p.2.erase uid).isEmpty <;>
          simp [disconnectCleanup, h, he, ih]
      · simp [disconnectCleanup, h, ih]

theorem disconnectCleanup_rooms (rooms : List (RoomId × List UserId))
    (uid : UserId) :
    (disconnectCleanup rooms uid).1
      = rooms.filterMap (fun q =>
          if uid ∈ q.2 then
            (if (q.2.erase uid).isEmpty then none else some (q.1, q.2.erase uid))
          else some q) := by
  induction rooms with
  | nil => rfl
  | cons p rest ih =>
      by_cases h : uid ∈ p.2
      · by_cases he : (p.2.erase uid).isEmpty
        · simp only [disconnectCleanup, if_pos h, if_pos he,
            List.filterMap_cons, ih]
        · simp only [disconnectCleanup, if_pos h, if_neg he,
            List.filterMap_cons, ih]
      · simp only [disconnectCleanup, if_neg h, List.filterMap_cons, ih]

theorem updateFirst_none (db : List Message) (mid requester now : Nat)
    (h : ∀ m ∈ db, deleteMatch mid requester m = false) :
    updateFirst db mid requester now = (none, db) := by
  induction db with
  | nil => rfl
  | cons m rest ih =>
      have hm := h m (List.mem_cons_self m rest)
      simp [updateFirst, hm, ih fun x hx => h x (List.mem_cons_of_mem m hx)]

theorem updateFirst_found (pre post : List Message) (m : Message)
    (mid requester now : Nat)
    (hpre : ∀ x ∈ pre, deleteMatch mid requester x = false)
    (hm : deleteMatch mid requester m = true) :
    updateFirst (pre ++ m :: post) mid requester now
      = (some (softDelete m now), pre ++ softDelete m now :: post) := by
  induction pre with
  | nil => simp [updateFirst, hm]
  | cons x rest ih =>
      have hx := hpre x (List.mem_cons_self x rest)
      simp [updateFirst, hx,
        ih fun y hy => hpre y (List.mem_cons_of_mem x hy)]

theorem deleteMatch_softDelete (mid requester now : Nat) (m : Message) :
    deleteMatch mid requester (softDelete m now) = deleteMatch mid requester m := rfl

theorem deleteRoomMessage_miss (db : List Message) (mid requester now : Nat)
    (h : ∀ m ∈ db, deleteMatch mid requester m = false) :
    deleteRoomMessage db mid requester now
      = (db, [⟨.toSender, .messageError none none⟩]) := by
  rw [deleteRoomMessage, updateFirst_none db mid requester now h]

theorem deleteRoomMessage_found (pre post : List Message) (m : Message)
    (mid requester now r : Nat)
    (hpre : ∀ x ∈ pre, deleteMatch mid requester x = false)
    (hm : deleteMatch mid requester m = true) (hr : m.room = some r) :
    deleteRoomMessage (pre ++ m :: post) mid requester now
      = (pre ++ softDelete m now :: post,
         [⟨.toRoom r, .roomMessageDeleted (softDelete m now)⟩]) := by
  rw [deleteRoomMessage, updateFirst_found pre post m mid requester now hpre hm]
  show (match (softDelete m now).room with
    | some r => _
    | none => _) = _
  rw [show (softDelete m now).room = some r from hr]

theorem softDelete_softDelete (m : Message) (now₁ now₂ : Nat) :
    softDelete (softDelete m now₁) now₂ = softDelete m now₂ := rfl

/-! Claim theorems. -/

/-- Claim C1: for every room send, every active member of the room
(including the sender) receives exactly two `newRoomMessage`
notifications carrying the same `tempId` — first the unconfirmed copy
(temporary `_id`), broadcast before persistence (it heads the emission
sequence), then the persisted copy (durable `_id`) — unless persistence
fails, in which case every member receives exactly one
`removeFailedMessage` carrying that `tempId` instead of the second
notification, and the sender's connection is additionally notified of
the failure via `messageError`. -/
theorem c1_room_send_two_or_withdraw
    (active : UserId → RoomId → Bool) (u roomId tempId : Nat) (text : String)
    (save : Option MsgId) (hu : active u roomId = true) :
    (∀ mid, save = some mid →
      receivedBy active u false (sendRoomMessage roomId text tempId save)
        = [.newRoomMessage (.temp tempId) tempId text,
           .newRoomMessage (.durable mid) tempId text]) ∧
    (save = none →
      receivedBy active u false (sendRoomMessage roomId text tempId save)
        = [.newRoomMessage (.temp tempId) tempId text,
           .removeFailedMessage tempId] ∧
      receivedBy active u true (sendRoomMessage roomId text tempId save)
        = [.newRoomMessage (.temp tempId) tempId text,
           .messageError none (some tempId),
           .removeFailedMessage tempId]) := by
  constructor
  · rintro mid rfl
    simp [sendRoomMessage, receivedBy, reaches, hu]
  · rintro rfl
    constructor <;> simp [sendRoomMessage, receivedBy, reaches, hu]

/-- Witness for C1: a member of room 7 receives exactly the unconfirmed
copy and then the persisted copy, both carrying `tempId` 5. -/
theorem c1_witness :
    receivedBy (fun u r => (u == 2) && (r == 7)) 2 false
        (sendRoomMessage 7 "hi" 5 (some 42))
      = [.newRoomMessage (.temp 5) 5 "hi",
         .newRoomMessage (.durable 42) 5 "hi"] :=
  (c1_room_send_two_or_withdraw (fun u r => (u == 2) && (r == 7)) 2 7 5 "hi"
      (some 42) (by decide)).1 42 rfl

/-- Claim C2: a successful direct send persists exactly one Message (the
store grows by that single record) and emits the populated message with
the original `clientMsgId` as `newMessage` to the personal rooms of both
receiver and sender; a failed save leaves the store unchanged and emits
a single `messageError` carrying the `clientMsgId` to the sending
connection only, with no `newMessage` broadcast. -/
theorem c2_direct_send_once_or_error
    (db : List Message) (senderId receiver : UserId) (text : String)
    (cmid mid now : Nat) :
    (sendMessage db senderId receiver text cmid (some mid) now
      = (db ++ [{ mid := mid, sender := senderId, receiver := some receiver,
                  room := none, text := text, clientMsgId := some cmid,
                  createdAt := now, isDeleted := false, deletedAt := none }],
         [⟨.toUser receiver,
           .newMessage { mid := mid, sender := senderId, receiver := some receiver,
                         room := none, text := text, clientMsgId := some cmid,
                         createdAt := now, isDeleted := false, deletedAt := none }
             (some cmid)⟩,
          ⟨.toUser senderId,
           .newMessage { mid := mid, sender := senderId, receiver := some receiver,
                         room := none, text := text, clientMsgId := some cmid,
                         createdAt := now, isDeleted := false, deletedAt := none }
             (some cmid)⟩])) ∧
    sendMessage db senderId receiver text cmid none now
      = (db, [⟨.toSender, .messageError (some cmid) none⟩]) :=
  ⟨rfl, rfl⟩

/-- Claim C4 counterexample: with two live connections registered for an
identity, the disconnect of one of them (one connection remains live)
still sets the identity's presence to offline — the code's disconnect
handler writes `online: false` unconditionally, so an identity with
another live connection does not stay online. -/
theorem c4_counterexample :
    (disconnect (register (register ⟨0, false, some 0⟩)) 5).conns = 1 ∧
    (disconnect (register (register ⟨0, false, some 0⟩)) 5).online = false := by
  decide

/-- Claim C4 (amended): registering a connection sets the identity's
presence to online and clears `lastSeen`; every disconnect of a
connection sets presence to offline and stamps `lastSeen` with the
current time, regardless of whether other live connections for the same
identity remain. -/
theorem c4_presence_updates (s : RegState) (now : Nat) :
    (register s).online = true ∧ (register s).lastSeen = none ∧
    (disconnect s now).online = false ∧
    (disconnect s now).lastSeen = some now :=
  ⟨rfl, rfl, rfl, rfl⟩

/-- Claim C5: on connection loss the cleanup emits exactly one
`userLeftRoom` broadcast per active-room entry containing the departing
identity (first conjunct: the emits are exactly one per such entry, in
map order); the resulting map keeps every other entry unchanged, removes
the identity from each entry that held it, and drops every entry whose
member set became empty (second conjunct); and for an entry holding the
identity with set semantics (no duplicates), the membership count
decreases by exactly one and the identity is gone (third and fourth
conjuncts). -/
theorem c5_disconnect_room_cleanup
    (rooms : List (RoomId × List UserId)) (uid : UserId)
    (p : RoomId × List UserId) (_hp : p ∈ rooms) (h1 : uid ∈ p.2)
    (h2 : p.2.Nodup) :
    (disconnectCleanup rooms uid).2
      = (rooms.filter (fun q => decide (uid ∈ q.2))).map
          (fun q => ⟨.toRoom q.1, .userLeftRoom uid q.1⟩) ∧
    (disconnectCleanup rooms uid).1
      = rooms.filterMap (fun q =>
          if uid ∈ q.2 then
            (if (q.2.erase uid).isEmpty then none
             else some (q.1, q.2.erase uid))
          else some q) ∧
    (p.2.erase uid).length + 1 = p.2.length ∧
    uid ∉ p.2.erase uid := by
  refine ⟨disconnectCleanup_emits rooms uid, disconnectCleanup_rooms rooms uid,
    ?_, h2.not_mem_erase⟩
  rw [List.length_erase_of_mem h1]
  exact Nat.succ_pred_eq_of_pos (List.length_pos.mpr (List.ne_nil_of_mem h1))

/-- Witness for C5: user 4 active in rooms 1 and 2 disconnects — one
leave broadcast per room, room 2 (emptied) dropped, room 1 shrinks by
one. -/
theorem c5_witness :
    (disconnectCleanup [(1, [4, 5]), (2, [4]), (3, [9])] 4).2
      = [⟨.toRoom 1, .userLeftRoom 4 1⟩, ⟨.toRoom 2, .userLeftRoom 4 2⟩] ∧
    (disconnectCleanup [(1, [4, 5]), (2, [4]), (3, [9])] 4).1
      = [(1, [5]), (3, [9])] ∧
    ([4, 5].erase 4).length + 1 = [4, 5].length := by
  have h := c5_disconnect_room_cleanup [(1, [4, 5]), (2, [4]), (3, [9])] 4
    (1, [4, 5]) (by decide) (by decide) (by decide)
  exact ⟨h.1.trans (by decide), h.2.1.trans (by decide), h.2.2.1⟩

/-- Claim C6 counterexample: in the private chat, a confirmed message
arriving with the same `clientMsgId` as an existing optimistic entry is
not substituted for that entry — `handleNewMessage` returns the previous
list unchanged (the arriving copy is dropped and the optimistic entry,
a different record, is retained), contradicting the claim that on a
correlation-id match the optimistic entry is replaced in place by the
arriving message. -/
theorem c6_counterexample :
    handleNewMessage
        [{ mid := some 100, clientMsgId := some 5, senderId := 1,
           text := "hi", createdAt := 0, isTemp := true }]
        { mid := some 200, clientMsgId := some 5, senderId := 1,
          text := "hi", createdAt := 100, isTemp := false }
      = [{ mid := some 100, clientMsgId := some 5, senderId := 1,
           text := "hi", createdAt := 0, isTemp := true }] ∧
    ({ mid := some 100, clientMsgId := some 5, senderId := 1,
       text := "hi", createdAt := 0, isTemp := true } : PMsg)
      ≠ { mid := some 200, clientMsgId := some 5, senderId := 1,
          text := "hi", createdAt := 100, isTemp := false } := by
  decide

/-- Claim C6 (amended): the two clients reconcile differently. The room
chat matches an arriving message against existing entries by `tempId`
or `_id` and, on a match, replaces the matched entry in place (list
length and positions preserved), appending on no match. The private
chat matches first by `clientMsgId`, else by the heuristic (existing
temp entry, identical text, timestamps within 1000 ms) and, on a match,
keeps its list unchanged — the arriving copy is discarded and the
optimistic entry retained in place, so the logical message still
appears only once — appending on no match. -/
theorem c6_reconciliation_behavior
    (prev : List RMsg) (m : RMsg) (pprev : List PMsg) (pm : PMsg) :
    (∀ i, prev.findIdx? (rmatches m) = some i →
        roomMessageHandler prev m = prev.set i m ∧
        (roomMessageHandler prev m).length = prev.length) ∧
    (prev.findIdx? (rmatches m) = none →
        roomMessageHandler prev m = prev ++ [m]) ∧
    (pIsDuplicate pprev pm = true → handleNewMessage pprev pm = pprev) ∧
    (pIsDuplicate pprev pm = false →
        handleNewMessage pprev pm = pprev ++ [pm]) := by
  refine ⟨fun i hi => ?_, fun hn => ?_, fun hd => ?_, fun hd => ?_⟩
  · rw [roomMessageHandler, hi]
    exact ⟨rfl, List.length_set ..⟩
  · rw [roomMessageHandler, hn]
  · rw [handleNewMessage, if_pos hd]
  · rw [handleNewMessage, if_neg (by simp [hd])]

/-- Witness for C6 (amended): a room broadcast matching an optimistic
entry by `tempId` replaces it in place; a private confirmed copy
matching by `clientMsgId` is dropped, leaving the optimistic entry. -/
theorem c6_witness :
    roomMessageHandler
        [{ wireId := some (.temp 5), tempId := some 5, senderId := 1,
           text := "hi", createdAt := 0 }]
        { wireId := some (.durable 42), tempId := some 5, senderId := 1,
          text := "hi", createdAt := 3 }
      = [{ wireId := some (.durable 42), tempId := some 5, senderId := 1,
           text := "hi", createdAt := 3 }] ∧
    handleNewMessage
        [{ mid := none, clientMsgId := some 9, senderId := 2,
           text := "yo", createdAt := 0, isTemp := true }]
        { mid := some 7, clientMsgId := some 9, senderId := 2,
          text := "yo", createdAt := 50, isTemp := false }
      = [{ mid := none, clientMsgId := some 9, senderId := 2,
           text := "yo", createdAt := 0, isTemp := true }] := by
  have h := c6_reconciliation_behavior
    [{ wireId := some (.temp 5), tempId := some 5, senderId := 1,
       text := "hi", createdAt := 0 }]
    { wireId := some (.durable 42), tempId := some 5, senderId := 1,
      text := "hi", createdAt := 3 }
    [{ mid := none, clientMsgId := some 9, senderId := 2,
       text := "yo", createdAt := 0, isTemp := true }]
    { mid := some 7, clientMsgId := some 9, senderId := 2,
      text := "yo", createdAt := 50, isTemp := false }
  exact ⟨((h.1 0 (by decide)).1).trans (by decide), h.2.2.1 (by decide)⟩

/-- Claim C7: a `deleteRoomMessage` request touches a message only when
the requester is its sender. When no stored message has the requested
id with the requester as sender (non-sender request or nonexistent id),
the store is left unchanged in full and the only emission is an error to
the requesting connection — no broadcast. When the first match exists
and owns a room, the store changes only at that record, which is
soft-deleted (text replaced by the fixed marker, `isDeleted` set,
deletion timestamp stamped), and the single emission broadcasts the
mutated record to the owning room. -/
theorem c7_delete_only_by_sender
    (db : List Message) (mid requester now : Nat) :
    ((∀ m ∈ db, deleteMatch mid requester m = false) →
        deleteRoomMessage db mid requester now
          = (db, [⟨.toSender, .messageError none none⟩])) ∧
    (∀ pre m post r, db = pre ++ m :: post →
        (∀ x ∈ pre, deleteMatch mid requester x = false) →
        deleteMatch mid requester m = true → m.room = some r →
        deleteRoomMessage db mid requester now
          = (pre ++ softDelete m now :: post,
             [⟨.toRoom r, .roomMessageDeleted (softDelete m now)⟩]) ∧
        (softDelete m now).text = "[Message deleted]" ∧
        (softDelete m now).isDeleted = true ∧
        (softDelete m now).deletedAt = some now) := by
  constructor
  · exact deleteRoomMessage_miss db mid requester now
  · rintro pre m post r rfl hpre hm hr
    exact ⟨deleteRoomMessage_found pre post m mid requester now r hpre hm hr,
      rfl, rfl, rfl⟩

/-- Witness for C7: a non-sender's request leaves the store unchanged
with only a local error; the sender's request soft-deletes and
broadcasts to the room. -/
theorem c7_witness :
    deleteRoomMessage
        [{ mid := 3, sender := 1, receiver := none, room := some 7,
           text := "hi", clientMsgId := none, createdAt := 0,
           isDeleted := false, deletedAt := none }] 3 2 50
      = ([{ mid := 3, sender := 1, receiver := none, room := some 7,
            text := "hi", clientMsgId := none, createdAt := 0,
            isDeleted := false, deletedAt := none }],
         [⟨.toSender, .messageError none none⟩]) ∧
    deleteRoomMessage
        [{ mid := 3, sender := 1, receiver := none, room := some 7,
           text := "hi", clientMsgId := none, createdAt := 0,
           isDeleted := false, deletedAt := none }] 3 1 50
      = ([{ mid := 3, sender := 1, receiver := none, room := some 7,
            text := "[Message deleted]", clientMsgId := none, createdAt := 0,
            isDeleted := true, deletedAt := some 50 }],
         [⟨.toRoom 7, .roomMessageDeleted
            { mid := 3, sender := 1, receiver := none, room := some 7,
              text := "[Message deleted]", clientMsgId := none, createdAt := 0,
              isDeleted := true, deletedAt := some 50 }⟩]) := by
  constructor
  · exact (c7_delete_only_by_sender
      [{ mid := 3, sender := 1, receiver := none, room := some 7,
         text := "hi", clientMsgId := none, createdAt := 0,
         isDeleted := false, deletedAt := none }] 3 2 50).1 (by decide)
  · exact (((c7_delete_only_by_sender
      [{ mid := 3, sender := 1, receiver := none, room := some 7,
         text := "hi", clientMsgId := none, createdAt := 0,
         isDeleted := false, deletedAt := none }] 3 1 50).2
      [] _ [] 7 rfl (by simp) (by decide) rfl).1).trans (by decide)

/-- Claim C8: two delete calls by the rightful sender on the same stored
message, in either order of their timestamps (the event loop makes each
atomic update a whole step, so these are the possible interleavings),
converge to a single soft-deleted record whose text is the fixed
deletion marker; both orders yield the same final text, and each call
broadcasts the mutation, so the mutation is broadcast at least once. -/
theorem c8_delete_idempotent_terminal
    (pre post : List Message) (m : Message) (mid requester now₁ now₂ r : Nat)
    (hpre : ∀ x ∈ pre, deleteMatch mid requester x = false)
    (hm : deleteMatch mid requester m = true) (hr : m.room = some r) :
    (deleteRoomMessage
        (deleteRoomMessage (pre ++ m :: post) mid requester now₁).1
        mid requester now₂).1
      = pre ++ softDelete m now₂ :: post ∧
    (deleteRoomMessage
        (deleteRoomMessage (pre ++ m :: post) mid requester now₂).1
        mid requester now₁).1
      = pre ++ softDelete m now₁ :: post ∧
    (softDelete m now₂).text = (softDelete m now₁).text ∧
    (softDelete m now₂).text = "[Message deleted]" ∧
    (softDelete m now₂).isDeleted = true ∧
    (deleteRoomMessage (pre ++ m :: post) mid requester now₁).2
      = [⟨.toRoom r, .roomMessageDeleted (softDelete m now₁)⟩] ∧
    (deleteRoomMessage
        (deleteRoomMessage (pre ++ m :: post) mid requester now₁).1
        mid requester now₂).2
      = [⟨.toRoom r, .roomMessageDeleted (softDelete m now₂)⟩] := by
  have hstep : ∀ t : Nat,
      deleteRoomMessage (pre ++ m :: post) mid requester t
        = (pre ++ softDelete m t :: post,
           [⟨.toRoom r, .roomMessageDeleted (softDelete m t)⟩]) := fun t =>
    deleteRoomMessage_found pre post m mid requester t r hpre hm hr
  have hstep₂ : ∀ t₁ t₂ : Nat,
      deleteRoomMessage (pre ++ softDelete m t₁ :: post) mid requester t₂
        = (pre ++ softDelete m t₂ :: post,
           [⟨.toRoom r, .roomMessageDeleted (softDelete m t₂)⟩]) := by
    intro t₁ t₂
    have h := deleteRoomMessage_found pre post (softDelete m t₁) mid requester
      t₂ r hpre (by rw [deleteMatch_softDelete]; exact hm) hr
    rwa [softDelete_softDelete] at h
  rw [hstep now₁, hstep now₂]
  rw [hstep₂ now₁ now₂, hstep₂ now₂ now₁]
  exact ⟨rfl, rfl, rfl, rfl, rfl, rfl, rfl⟩

/-- Witness for C8: two deletes of message 3 by its sender, in both
orders, end with the marker text and broadcast each time. -/
theorem c8_witness :
    (deleteRoomMessage
        (deleteRoomMessage
            [{ mid := 3, sender := 1, receiver := none, room := some 7,
               text := "hi", clientMsgId := none, createdAt := 0,
               isDeleted := false, deletedAt := none }] 3 1 50).1 3 1 60).1
      = [{ mid := 3, sender := 1, receiver := none, room := some 7,
           text := "[Message deleted]", clientMsgId := none, createdAt := 0,
           isDeleted := true, deletedAt := some 60 }] := by
  have h := c8_delete_idempotent_terminal []
    [] { mid := 3, sender := 1, receiver := none, room := some 7,
         text := "hi", clientMsgId := none, createdAt := 0,
         isDeleted := false, deletedAt := none } 3 1 50 60 7
    (by simp) (by decide) rfl
  exact h.1.trans (by decide)

theorem hgcsAnswerEq (s : CallPeers) (fromId : UserId) (pc : PeerConn)
    (sdp : Nat) (h : getA s.peers fromId = some pc) :
    handleGroupCallSignal s fromId (.answer sdp)
      = { s with
          peers := setA s.peers fromId
            { pc with remoteDesc := some (.answer sdp),
                      applied := pc.applied ++ qget s.pending fromId },
          pending := setA s.pending fromId [] } := by
  simp [handleGroupCallSignal, h]

theorem hgcsOfferEq (s : CallPeers) (fromId : UserId) (pc : PeerConn)
    (sdp : Nat) (h : getA s.peers fromId = some pc) :
    handleGroupCallSignal s fromId (.offer sdp)
      = { s with
          peers := setA s.peers fromId { pc with remoteDesc := some (.offer sdp) },
          outgoing := s.outgoing ++ [.answer sdp] } := by
  simp [handleGroupCallSignal, h]

theorem bufferFold (fromId : UserId) (cs : List Nat) :
    ∀ (s : CallPeers) (pc : PeerConn),
      getA s.peers fromId = some pc → pc.remoteDesc = none →
      (cs.foldl (fun st c => handleGroupCallSignal st fromId (.candidate c)) s).peers
        = s.peers ∧
      qget (cs.foldl (fun st c => handleGroupCallSignal st fromId (.candidate c)) s).pending
          fromId
        = qget s.pending fromId ++ cs := by
  induction cs with
  | nil => intro s pc _ _; exact ⟨rfl, by simp⟩
  | cons c rest ih =>
      intro s pc h hd
      have hstep : handleGroupCallSignal s fromId (.candidate c)
          = { s with
              pending := setA s.pending fromId (qget s.pending fromId ++ [c]) } := by
        simp [handleGroupCallSignal, h, hd]
      have h₁ : getA (handleGroupCallSignal s fromId (.candidate c)).peers fromId
          = some pc := by rw [hstep]; exact h
      obtain ⟨hpeers, hq⟩ := ih (handleGroupCallSignal s fromId (.candidate c)) pc h₁ hd
      refine ⟨by rw [List.foldl_cons, hpeers, hstep], ?_⟩
      rw [List.foldl_cons, hq, hstep]
      show qget (setA s.pending fromId (qget s.pending fromId ++ [c])) fromId ++ rest = _
      rw [qget, getA_setA_self]
      simp

/-- Claim C3 counterexample: with a peer connection present for remote
participant 2 and no remote description yet, a connectivity candidate is
buffered; the subsequent offer sets the remote description, yet the
buffered candidate is not applied (`applied` stays empty) and remains in
the pending queue — the offer path never flushes, contradicting the
claim that buffered candidates are applied immediately after the remote
description is set on every such path. -/
theorem c3_counterexample :
    (handleGroupCallSignal
        (handleGroupCallSignal ⟨[(2, ⟨none, []⟩)], [], []⟩ 2 (.candidate 9))
        2 (.offer 7)).peers
      = [(2, ⟨some (.offer 7), []⟩)] ∧
    (handleGroupCallSignal
        (handleGroupCallSignal ⟨[(2, ⟨none, []⟩)], [], []⟩ 2 (.candidate 9))
        2 (.offer 7)).pending
      = [(2, [9])] := by
  decide

/-- Claim C3 (amended): candidates arriving for a remote participant
before its remote description is applied are buffered in that
participant's pending queue in arrival order and are never applied
early; when the remote description is set by an answer they are all
flushed immediately, in arrival order, after any candidates already
applied. When the remote description is set by an offer, nothing is
flushed: the queue still holds every buffered candidate and none has
been applied. -/
theorem c3_candidate_buffering
    (s : CallPeers) (fromId : UserId) (pc : PeerConn) (cs : List Nat)
    (sdp : Nat) (h : getA s.peers fromId = some pc)
    (hd : pc.remoteDesc = none) :
    qget (cs.foldl (fun st c => handleGroupCallSignal st fromId (.candidate c)) s).pending
        fromId
      = qget s.pending fromId ++ cs ∧
    getA (handleGroupCallSignal
        (cs.foldl (fun st c => handleGroupCallSignal st fromId (.candidate c)) s)
        fromId (.answer sdp)).peers fromId
      = some { pc with remoteDesc := some (.answer sdp),
                       applied := pc.applied ++ (qget s.pending fromId ++ cs) } ∧
    qget (handleGroupCallSignal
        (cs.foldl (fun st c => handleGroupCallSignal st fromId (.candidate c)) s)
        fromId (.answer sdp)).pending fromId
      = [] ∧
    getA (handleGroupCallSignal
        (cs.foldl (fun st c => handleGroupCallSignal st fromId (.candidate c)) s)
        fromId (.offer sdp)).peers fromId
      = some { pc with remoteDesc := some (.offer sdp) } ∧
    qget (handleGroupCallSignal
        (cs.foldl (fun st c => handleGroupCallSignal st fromId (.candidate c)) s)
        fromId (.offer sdp)).pending fromId
      = qget s.pending fromId ++ cs := by
  obtain ⟨hpeers, hq⟩ := bufferFold fromId cs s pc h hd
  have h₂ : getA (cs.foldl (fun st c => handleGroupCallSignal st fromId (.candidate c)) s).peers
      fromId = some pc := by rw [hpeers]; exact h
  refine ⟨hq, ?_, ?_, ?_, ?_⟩
  · rw [hgcsAnswerEq _ _ pc sdp h₂]
    show getA (setA _ _ _) _ = _
    rw [getA_setA_self, hq]
  · rw [hgcsAnswerEq _ _ pc sdp h₂]
    show qget (setA _ _ _) _ = _
    simp only [qget, getA_setA_self, Option.getD_some]
  · rw [hgcsOfferEq _ _ pc sdp h₂]
    show getA (setA _ _ _) _ = _
    rw [getA_setA_self]
  · rw [hgcsOfferEq _ _ pc sdp h₂]
    exact hq

/-- Witness for C3 (amended): two candidates buffered for remote peer 2
are flushed by the answer in arrival order, and are still pending after
an offer instead. -/
theorem c3_witness :
    qget (handleGroupCallSignal
        ([9, 11].foldl
          (fun st c => handleGroupCallSignal st 2 (.candidate c))
          ⟨[(2, ⟨none, [4]⟩)], [(2, [3])], []⟩)
        2 (.answer 7)).pending 2
      = [] ∧
    getA (handleGroupCallSignal
        ([9, 11].foldl
          (fun st c => handleGroupCallSignal st 2 (.candidate c))
          ⟨[(2, ⟨none, [4]⟩)], [(2, [3])], []⟩)
        2 (.answer 7)).peers 2
      = some ⟨some (.answer 7), [4, 3, 9, 11]⟩ := by
  have h := c3_candidate_buffering ⟨[(2, ⟨none, [4]⟩)], [(2, [3])], []⟩ 2
    ⟨none, [4]⟩ [9, 11] 7 (by decide) rfl
  exact ⟨h.2.2.1, h.2.1.trans (by decide)⟩

/-- Claim C9 counterexample: rejecting an incoming group call while
holding a local media stream terminates the call UI (`onClose` runs)
without stopping the local stream's tracks — the reject path skips the
release, contradicting the claim that every terminal transition
releases local media capture. -/
theorem c9_counterexample :
    (rejectGroupCall ⟨true, false, false, false, false⟩).tracksStopped = false ∧
    (rejectGroupCall ⟨true, false, false, false, false⟩).closed = true := by
  decide

/-- Claim C9 (amended): the local media tracks are stopped on `endCall`
and on remote termination (`handleGroupCallEnded`, which calls
`endCall`); the reject path, the remote-rejected path, and the
negotiation-error path leave the local tracks running (release there is
left to the effect cleanup, whose captured stream reference never holds
the acquired stream). -/
theorem c9_media_release_paths (s : CallUI) (h : s.hasLocalStream = true) :
    (endCall s).tracksStopped = true ∧
    (handleGroupCallEnded s).tracksStopped = true ∧
    (rejectGroupCall s).tracksStopped = s.tracksStopped ∧
    (handleGroupCallRejected s).tracksStopped = s.tracksStopped ∧
    (signalErrorStep s).tracksStopped = s.tracksStopped := by
  simp [endCall, handleGroupCallEnded, rejectGroupCall,
    handleGroupCallRejected, signalErrorStep, h]

/-- Witness for C9 (amended): with a held stream, ending stops the
tracks while rejecting leaves them running. -/
theorem c9_witness :
    (endCall ⟨true, false, false, false, false⟩).tracksStopped = true ∧
    (rejectGroupCall ⟨true, false, false, false, false⟩).tracksStopped
      = (⟨true, false, false, false, false⟩ : CallUI).tracksStopped := by
  have h := c9_media_release_paths ⟨true, false, false, false, false⟩ rfl
  exact ⟨h.1, h.2.2.1⟩

/-- Claim C10: in every store reachable by successful inserts, any two
persisted messages that both carry a `clientMsgId` carry different
values (the sparse unique index on `clientMsgId` alone), and a further
insert reusing the `clientMsgId` of any stored message is rejected —
for every such retry, regardless of its text or creation timestamp, so
the guard is strictly stronger than the five-field tuple uniqueness,
which only blocks identical payload and timestamp. -/
theorem c10_clientMsgId_unique_guard (db : List Message) (h : Persisted db) :
    db.Pairwise (fun a b => a.clientMsgId.isSome = true →
      b.clientMsgId.isSome = true → a.clientMsgId ≠ b.clientMsgId) ∧
    (∀ m₁ ∈ db, ∀ m₂ : Message, m₁.clientMsgId.isSome = true →
      m₂.clientMsgId = m₁.clientMsgId → insertMessage db m₂ = none) := by
  constructor
  · induction h with
    | nil => exact List.Pairwise.nil
    | @insert db db₂ m hdb hins ih =>
        rw [insertMessage] at hins
        split at hins
        · exact absurd hins (by simp)
        · rename_i hcond
          have hcc : clientConflict db m = false := by
            revert hcond
            cases clientConflict db m <;> simp
          obtain rfl : db ++ [m] = db₂ := by injection hins
          rw [List.pairwise_append]
          refine ⟨ih, List.pairwise_singleton _ _, ?_⟩
          intro a ha b hb
          rw [List.mem_singleton] at hb
          subst hb
          intro hsa hsb heq
          have : clientConflict db b = true := by
            simp only [clientConflict, List.any_eq_true, Bool.and_eq_true,
              beq_iff_eq]
            exact ⟨hsb, a, ha, hsa, heq⟩
          rw [this] at hcc
          exact Bool.true_eq_false.mp hcc
  · intro m₁ hm₁ m₂ hs heq
    have hc : clientConflict db m₂ = true := by
      simp only [clientConflict, List.any_eq_true, Bool.and_eq_true,
        beq_iff_eq]
      exact ⟨by rw [heq]; exact hs, m₁, hm₁, hs, heq.symm⟩
    rw [insertMessage, if_pos (by rw [hc]; rfl)]

/-- Sample persisted direct message, `clientMsgId` 5. -/
def sampleMsgA : Message :=
  { mid := 1, sender := 1, receiver := some 2, room := none,
    text := "hi", clientMsgId := some 5, createdAt := 10,
    isDeleted := false, deletedAt := none }

/-- Retry of [`sampleMsgA`]'s send reusing `clientMsgId` 5 with a
different text and creation timestamp. -/
def sampleMsgB : Message :=
  { mid := 2, sender := 1, receiver := some 2, room := none,
    text := "hi again", clientMsgId := some 5, createdAt := 999,
    isDeleted := false, deletedAt := none }

/-- Witness for C10: a store holding one message with `clientMsgId` 5
rejects a retry that reuses `clientMsgId` 5 even though its text and
creation timestamp differ (so the five-field tuple index alone would
have admitted it). -/
theorem c10_witness :
    insertMessage [sampleMsgA] sampleMsgB = none ∧
    sampleMsgB.text ≠ sampleMsgA.text ∧
    sampleMsgB.createdAt ≠ sampleMsgA.createdAt := by
  have h := c10_clientMsgId_unique_guard [sampleMsgA]
    (@Persisted.insert [] [sampleMsgA] sampleMsgA Persisted.nil (by decide))
  exact ⟨h.2 sampleMsgA (List.mem_singleton.mpr rfl) sampleMsgB rfl rfl,
    by decide, by decide⟩

end ChitChat
